import Mathlib

/-!
# Restaurant order taking: pricing and order submission

A shallow embedding of `main.go`: the static menu catalog, the pricing loop
`CalculateTotal`, the data handed to the page by `RenderTemplate`, and the
order-submission handler `AddCustomer`, followed by the properties proved about
them.

Modelling conventions.

* Go strings are modelled as `String` (sequences of Unicode code points).
  Every catalog name is ASCII, the separator `,` is ASCII and every white-space
  rune is a valid code point, so a byte that is not valid UTF-8 behaves like any
  other character that is neither white space nor a comma.
* Prices are `float64` in the source. Every catalog price is a whole number and
  the totals are sums of catalog prices, so each partial sum is a whole number
  between 0 and `150 * length` (see `lookupTotal_bounds`). `float64`
  addition is exact on whole numbers up to `2 ^ 53`, which an order would need
  more than `6 * 10 ^ 13` names to exceed: more than a slice can hold in a 48-bit
  address space, and far more than a parsed form body can carry. Prices and
  totals are therefore modelled as `Int`.
* The document store is explicit state (`Collection`); whether the driver call
  succeeds is decided by the environment and recorded in the state.
-/

namespace RMS

/-! ## Data model -/

/-- The Go struct `MenuItem`. -/
structure MenuItem where
  Name : String
  Price : Int
deriving DecidableEq

/-- The Go struct `Customer`. -/
structure Customer where
  Name : String
  Phone : String
  OrderedItems : List String
  TotalAmount : Int
deriving DecidableEq

/-- The package-level variable `menuItems`. -/
def menuItems : List MenuItem :=
  [ ⟨"Burger", 50⟩,
    ⟨"Pizza", 150⟩,
    ⟨"Pasta", 100⟩,
    ⟨"Sandwich", 40⟩,
    ⟨"Fries", 30⟩,
    ⟨"Soda", 20⟩,
    ⟨"Coffee", 25⟩,
    ⟨"Salad", 60⟩,
    ⟨"Ice Cream", 45⟩,
    ⟨"Soup", 35⟩ ]

/-! ## Library functions used by the program -/

/-- Go's `unicode.IsSpace`: the Latin-1 white-space runes, and outside Latin-1
the runes of the `White_Space` table. -/
def isSpace (r : Char) : Bool :=
  let n := r.toNat
  if n ≤ 0xFF then
    n = 0x09 || n = 0x0A || n = 0x0B || n = 0x0C || n = 0x0D || n = 0x20
      || n = 0x85 || n = 0xA0
  else
    n = 0x1680 || (0x2000 ≤ n && n ≤ 0x200A) || n = 0x2028 || n = 0x2029
      || n = 0x202F || n = 0x205F || n = 0x3000

/-- Go's `strings.TrimSpace`: drop the leading white space, then the trailing
white space. -/
def TrimSpace (s : String) : String :=
  ⟨((s.data.dropWhile isSpace).reverse.dropWhile isSpace).reverse⟩

/-- The scan of `strings.Split` for a one-character separator: `cur` is the piece
read since the last separator. -/
def splitFrom (sep : Char) : List Char → List Char → List (List Char)
  | cur, [] => [cur]
  | cur, c :: cs =>
    if c = sep then cur :: splitFrom sep [] cs else splitFrom sep (cur ++ [c]) cs

/-- Go's `strings.Split(s, sep)` for a one-character separator. -/
def Split (s : String) (sep : Char) : List String :=
  (splitFrom sep [] s.data).map String.mk

/-- Go's `strings.Join(elems, sep)` for a one-character separator. -/
def Join (elems : List String) (sep : Char) : String :=
  ⟨List.intercalate [sep] (elems.map String.data)⟩

/-! ## Pricing -/

/-- The loop nest of `CalculateTotal`, over an arbitrary catalog. -/
def calculateTotalOver (menu : List MenuItem) (orderedItems : List String) : Int :=
  orderedItems.foldl
    (fun total itemName =>
      menu.foldl
        (fun total menuItem =>
          if TrimSpace itemName = menuItem.Name then total + menuItem.Price else total)
        total)
    0

/-- The Go function `CalculateTotal`, which reads the package-level catalog. -/
def CalculateTotal (orderedItems : List String) : Int :=
  calculateTotalOver menuItems orderedItems

/-- Single-lookup pricing of one name, following the specification's wording: the
price of the catalog entry whose name equals the trimmed name, or 0 when there
is none. -/
def lookupPrice (menu : List MenuItem) (itemName : String) : Int :=
  match menu.find? (fun menuItem => TrimSpace itemName = menuItem.Name) with
  | some menuItem => menuItem.Price
  | none => 0

/-- Single-lookup pricing of an order, following the specification's wording: the
sum over the names of their looked-up prices. -/
def lookupTotal (menu : List MenuItem) (orderedItems : List String) : Int :=
  (orderedItems.map (lookupPrice menu)).sum

/-! ## The document store -/

/-- The collection `restaurant.customers`. `reachable` records whether the driver
answers the next call; when it does not, the call returns an error and the
stored documents stay as they are. -/
structure Collection where
  docs : List Customer
  reachable : Bool
deriving DecidableEq

/-- The driver call `InsertOne`: the flag tells whether it returned a nil error. -/
def InsertOne (db : Collection) (doc : Customer) : Bool × Collection :=
  if db.reachable then (true, { db with docs := db.docs ++ [doc] }) else (false, db)

/-- The Go function `GetCustomers`: all stored documents in storage order, or
`none` when the query fails and `log.Fatal` ends the process. -/
def GetCustomers (db : Collection) : Option (List Customer) :=
  if db.reachable then some db.docs else none

/-! ## The HTTP surface -/

/-- The part of `*http.Request` the handlers read: the method, and the outcome of
`r.ParseForm()` (`none` when it returns an error, otherwise the parsed values,
first value of a key first). -/
structure Request where
  Method : String
  Form : Option (List (String × String))

/-- The observable state of an `http.ResponseWriter`: the status line (`none`
until a header is written), the `Location` header and the body. -/
structure ResponseWriter where
  Status : Option Nat
  Location : Option String
  Body : String
deriving DecidableEq

def MethodPost : String := "POST"

def StatusSeeOther : Nat := 303

def StatusBadRequest : Nat := 400

def StatusInternalServerError : Nat := 500

/-- The method `r.FormValue(key)` after a successful parse: the first value of
the key, or the empty string when the key is absent. -/
def FormValue (form : List (String × String)) (key : String) : String :=
  match form.lookup key with
  | some v => v
  | none => ""

/-- The method `w.WriteHeader(code)`: only the first call sets the status. -/
def WriteHeader (w : ResponseWriter) (code : Nat) : ResponseWriter :=
  match w.Status with
  | none => { w with Status := some code }
  | some _ => w

/-- The function `http.Error(w, error, code)`: write the status, then the message
and a newline. -/
def Error (w : ResponseWriter) (error : String) (code : Nat) : ResponseWriter :=
  let w := WriteHeader w code
  { w with Body := w.Body ++ error ++ "\n" }

/-- The function `http.Redirect(w, r, url, code)` for a request that is not a GET
and a rooted, already clean `url` such as `/` (the only kind of call made here):
set `Location` to `url`, write the status, no body. -/
def Redirect (w : ResponseWriter) (url : String) (code : Nat) : ResponseWriter :=
  WriteHeader { w with Location := some url } code

/-- The value handed to the page template by `RenderTemplate`. -/
structure PageData where
  MenuItems : List MenuItem
  Customers : List Customer
  Year : Nat
deriving DecidableEq

/-- The Go function `RenderTemplate`, up to the construction of the template data:
`none` when `GetCustomers` ends the process. -/
def RenderTemplate (db : Collection) : Option PageData :=
  match GetCustomers db with
  | none => none
  | some customers => some { MenuItems := menuItems, Customers := customers, Year := 2024 }

/-- The Go function `AddCustomer`: the response writer and the collection after
the handler returns. -/
def AddCustomer (w : ResponseWriter) (r : Request) (db : Collection) :
    ResponseWriter × Collection :=
  if r.Method = MethodPost then
    match r.Form with
    | none => (Error w "Invalid form data" StatusBadRequest, db)
    | some form =>
      let name := FormValue form "name"
      let phone := FormValue form "phone"
      let orderedItems := Split (FormValue form "orderedItems") ','
      let totalAmount := CalculateTotal orderedItems
      let customer : Customer :=
        { Name := name, Phone := phone, OrderedItems := orderedItems,
          TotalAmount := totalAmount }
      match InsertOne db customer with
      | (false, db) => (Error w "Error saving customer" StatusInternalServerError, db)
      | (true, db) => (Redirect w "/" StatusSeeOther, db)
  else
    (w, db)

/-! ## Pricing: the loop nest as a double sum -/

theorem menu_foldl_eq (menu : List MenuItem) (itemName : String) (total : Int) :
    menu.foldl
        (fun total menuItem =>
          if TrimSpace itemName = menuItem.Name then total + menuItem.Price else total)
        total
      = total + (menu.map fun menuItem =>
          if TrimSpace itemName = menuItem.Name then menuItem.Price else 0).sum := by
  induction menu generalizing total with
  | nil => simp
  | cons m ms ih =>
    simp only [List.foldl_cons, List.map_cons, List.sum_cons]
    rw [ih]
    split <;> ring

theorem items_foldl_eq (menu : List MenuItem) (orderedItems : List String) (acc : Int) :
    orderedItems.foldl
        (fun total itemName =>
          menu.foldl
            (fun total menuItem =>
              if TrimSpace itemName = menuItem.Name then total + menuItem.Price else total)
            total)
        acc
      = acc + (orderedItems.map fun itemName =>
          (menu.map fun menuItem =>
            if TrimSpace itemName = menuItem.Name then menuItem.Price else 0).sum).sum := by
  induction orderedItems generalizing acc with
  | nil => simp
  | cons n ns ih =>
    simp only [List.foldl_cons, List.map_cons, List.sum_cons]
    rw [ih, menu_foldl_eq]
    ring

theorem calculateTotalOver_eq_sum (menu : List MenuItem) (orderedItems : List String) :
    calculateTotalOver menu orderedItems
      = (orderedItems.map fun itemName =>
          (menu.map fun menuItem =>
            if TrimSpace itemName = menuItem.Name then menuItem.Price else 0).sum).sum := by
  unfold calculateTotalOver
  rw [items_foldl_eq]
  simp

theorem sum_eq_zero_of_no_match (menu : List MenuItem) (itemName : String)
    (h : ∀ menuItem ∈ menu, TrimSpace itemName ≠ menuItem.Name) :
    (menu.map fun menuItem =>
      if TrimSpace itemName = menuItem.Name then menuItem.Price else 0).sum = 0 := by
  induction menu with
  | nil => simp
  | cons m ms ih =>
    simp only [List.map_cons, List.sum_cons]
    rw [ih (fun x hx => h x (List.mem_cons_of_mem _ hx)), if_neg (h m (List.mem_cons_self _ _))]
    simp

/-- Claim C1. `CalculateTotal` is the double sum, over every name of the order and
every entry of the catalog, of the entry's price when the trimmed name equals the
entry's name exactly and of 0 otherwise. The same holds of the loop nest over any
catalog, so entries with equal names are each counted; and a name that matches no
entry contributes 0, and can be removed from the order without changing the
total. -/
theorem CalculateTotal_eq_double_sum (orderedItems : List String) :
    CalculateTotal orderedItems
        = (orderedItems.map fun itemName =>
            (menuItems.map fun menuItem =>
              if TrimSpace itemName = menuItem.Name then menuItem.Price else 0).sum).sum
      ∧ (∀ menu : List MenuItem,
          calculateTotalOver menu orderedItems
            = (orderedItems.map fun itemName =>
                (menu.map fun menuItem =>
                  if TrimSpace itemName = menuItem.Name then menuItem.Price else 0).sum).sum)
      ∧ (∀ itemName : String,
          (∀ menuItem ∈ menuItems, TrimSpace itemName ≠ menuItem.Name) →
            (menuItems.map fun menuItem =>
                if TrimSpace itemName = menuItem.Name then menuItem.Price else 0).sum = 0
              ∧ ∀ before : List String,
                  CalculateTotal (before ++ itemName :: orderedItems)
                    = CalculateTotal (before ++ orderedItems)) := by
  refine ⟨calculateTotalOver_eq_sum _ _, fun menu => calculateTotalOver_eq_sum _ _, ?_⟩
  intro itemName h
  refine ⟨sum_eq_zero_of_no_match _ _ h, fun before => ?_⟩
  unfold CalculateTotal
  rw [calculateTotalOver_eq_sum, calculateTotalOver_eq_sum]
  simp only [List.map_append, List.map_cons, List.sum_append, List.sum_cons]
  rw [sum_eq_zero_of_no_match _ _ h]
  simp

/-- Witness for C1: the name `"Tea"` matches no entry of the catalog, so it adds 0
to the order `["Burger"]`. -/
theorem CalculateTotal_eq_double_sum_witness :
    CalculateTotal ([] ++ "Tea" :: ["Burger"]) = CalculateTotal ([] ++ ["Burger"]) :=
  ((CalculateTotal_eq_double_sum ["Burger"]).2.2 "Tea" (by decide)).2 []

/-- Claim C2. The totals of the specification's sample orders against the default
catalog: the empty order, one item, two items, an item with surrounding white
space, and an item in the wrong letter case. -/
theorem CalculateTotal_examples :
    CalculateTotal [] = 0
      ∧ CalculateTotal ["Burger"] = 50
      ∧ CalculateTotal ["Burger", "Pizza"] = 200
      ∧ CalculateTotal [" Burger "] = 50
      ∧ CalculateTotal ["burger"] = 0 := by
  decide

/-- Claim C7. `CalculateTotal` does not depend on the order of the names: two
orders that are permutations of each other have the same total. -/
theorem CalculateTotal_perm (xs ys : List String) (h : xs.Perm ys) :
    CalculateTotal xs = CalculateTotal ys := by
  unfold CalculateTotal
  rw [calculateTotalOver_eq_sum, calculateTotalOver_eq_sum]
  exact (h.map _).sum_eq

/-- Witness for C7: an order of three names and its reversal. -/
theorem CalculateTotal_perm_witness :
    CalculateTotal ["Burger", " Pizza", "Tea"] = CalculateTotal ["Tea", " Pizza", "Burger"] :=
  CalculateTotal_perm ["Burger", " Pizza", "Tea"] ["Tea", " Pizza", "Burger"]
    (List.reverse_perm ["Tea", " Pizza", "Burger"])

/-! ## Pricing: the default catalog -/

theorem filter_length_le_one (menu : List MenuItem) (hnd : (menu.map MenuItem.Name).Nodup)
    (itemName : String) :
    (menu.filter fun menuItem => TrimSpace itemName = menuItem.Name).length ≤ 1 := by
  induction menu with
  | nil => simp
  | cons m ms ih =>
    rw [List.map_cons, List.nodup_cons] at hnd
    by_cases hm : TrimSpace itemName = m.Name
    · have hnone : ∀ x ∈ ms, ¬ (TrimSpace itemName = x.Name) := by
        intro x hx hxe
        exact hnd.1 (List.mem_map.2 ⟨x, hx, by rw [← hxe, hm]⟩)
      have hfil : (ms.filter fun menuItem => TrimSpace itemName = menuItem.Name) = [] := by
        rw [List.filter_eq_nil_iff]
        intro x hx
        simpa using hnone x hx
      rw [List.filter_cons_of_pos (by simpa using hm), hfil]
      simp
    · rw [List.filter_cons_of_neg (by simpa using hm)]
      exact ih hnd.2

theorem sum_eq_lookupPrice (menu : List MenuItem) (hnd : (menu.map MenuItem.Name).Nodup)
    (itemName : String) :
    (menu.map fun menuItem =>
        if TrimSpace itemName = menuItem.Name then menuItem.Price else 0).sum
      = lookupPrice menu itemName := by
  induction menu with
  | nil => simp [lookupPrice]
  | cons m ms ih =>
    rw [List.map_cons, List.nodup_cons] at hnd
    by_cases hm : TrimSpace itemName = m.Name
    · have hnone : ∀ x ∈ ms, TrimSpace itemName ≠ x.Name := by
        intro x hx hxe
        exact hnd.1 (List.mem_map.2 ⟨x, hx, by rw [← hxe, hm]⟩)
      simp only [List.map_cons, List.sum_cons]
      rw [sum_eq_zero_of_no_match ms itemName hnone]
      simp [lookupPrice, List.find?_cons, hm]
    · have ih := ih hnd.2
      simp only [List.map_cons, List.sum_cons]
      rw [ih]
      simp [lookupPrice, List.find?_cons, hm]

theorem lookupPrice_bounds (menu : List MenuItem) (hi : Int)
    (hb : ∀ menuItem ∈ menu, 0 ≤ menuItem.Price ∧ menuItem.Price ≤ hi) (h0 : 0 ≤ hi)
    (itemName : String) :
    0 ≤ lookupPrice menu itemName ∧ lookupPrice menu itemName ≤ hi := by
  unfold lookupPrice
  cases hf : menu.find? (fun menuItem => TrimSpace itemName = menuItem.Name) with
  | none => exact ⟨le_refl 0, h0⟩
  | some m => exact hb m (List.mem_of_find?_eq_some hf)

theorem lookupTotal_bounds (menu : List MenuItem) (hi : Int)
    (hb : ∀ menuItem ∈ menu, 0 ≤ menuItem.Price ∧ menuItem.Price ≤ hi) (h0 : 0 ≤ hi)
    (orderedItems : List String) :
    0 ≤ lookupTotal menu orderedItems
      ∧ lookupTotal menu orderedItems ≤ hi * orderedItems.length := by
  unfold lookupTotal
  induction orderedItems with
  | nil => simp
  | cons n ns ih =>
    have hn := lookupPrice_bounds menu hi hb h0 n
    simp only [List.map_cons, List.sum_cons, List.length_cons, Nat.cast_add, Nat.cast_one]
    constructor
    · linarith [ih.1, hn.1]
    · nlinarith [ih.2, hn.2]

theorem menuItems_names_nodup : (menuItems.map MenuItem.Name).Nodup := by
  decide

theorem menuItems_price_bounds :
    ∀ menuItem ∈ menuItems, 0 ≤ menuItem.Price ∧ menuItem.Price ≤ 150 := by
  decide

theorem CalculateTotal_eq_lookupTotal (orderedItems : List String) :
    CalculateTotal orderedItems = lookupTotal menuItems orderedItems := by
  unfold CalculateTotal lookupTotal
  rw [calculateTotalOver_eq_sum]
  congr 1
  apply List.map_congr_left
  intro n _
  exact sum_eq_lookupPrice menuItems menuItems_names_nodup n

/-- Claim C10. Against the default catalog the loop nest of `CalculateTotal`
computes the single-lookup pricing `lookupTotal`; every name matches at most one
catalog entry; and the total lies between 0 and 150 times the number of names. -/
theorem CalculateTotal_refines_lookup (orderedItems : List String) :
    CalculateTotal orderedItems = lookupTotal menuItems orderedItems
      ∧ (∀ itemName : String,
          (menuItems.filter fun menuItem => TrimSpace itemName = menuItem.Name).length ≤ 1)
      ∧ 0 ≤ CalculateTotal orderedItems
      ∧ CalculateTotal orderedItems ≤ 150 * orderedItems.length := by
  have hb := lookupTotal_bounds menuItems 150 menuItems_price_bounds (by decide) orderedItems
  rw [CalculateTotal_eq_lookupTotal]
  exact ⟨rfl, filter_length_le_one menuItems menuItems_names_nodup, hb.1, hb.2⟩

/-- Claim C6. The catalog has exactly 10 entries with pairwise distinct names and
non-negative prices, and for every list of stored orders the menu that
`RenderTemplate` hands to the page is this catalog. -/
theorem menuItems_catalog :
    menuItems.length = 10
      ∧ (menuItems.map MenuItem.Name).Nodup
      ∧ (∀ menuItem ∈ menuItems, 0 ≤ menuItem.Price)
      ∧ ∀ docs : List Customer,
          RenderTemplate { docs := docs, reachable := true }
            = some { MenuItems := menuItems, Customers := docs, Year := 2024 } := by
  refine ⟨by decide, menuItems_names_nodup, by decide, fun docs => rfl⟩

/-- Witness for C6: the price of the catalog entry `Soup` is non-negative. -/
theorem menuItems_catalog_witness : (0 : Int) ≤ (MenuItem.mk "Soup" 35).Price :=
  menuItems_catalog.2.2.1 (MenuItem.mk "Soup" 35) (by decide)

/-! ## Splitting the submitted item list -/

theorem splitFrom_ne_nil (sep : Char) (cur s : List Char) : splitFrom sep cur s ≠ [] := by
  induction s generalizing cur with
  | nil => simp [splitFrom]
  | cons c cs ih =>
    unfold splitFrom
    split
    · simp
    · exact ih _

theorem splitFrom_length (sep : Char) (cur s : List Char) :
    (splitFrom sep cur s).length = s.count sep + 1 := by
  induction s generalizing cur with
  | nil => simp [splitFrom]
  | cons c cs ih =>
    unfold splitFrom
    by_cases hc : c = sep
    · subst hc
      simp [ih]
    · rw [if_neg hc, ih, List.count_cons_of_ne (Ne.symm hc)]

theorem splitFrom_not_mem (sep : Char) (cur s : List Char) (hcur : sep ∉ cur) :
    ∀ piece ∈ splitFrom sep cur s, sep ∉ piece := by
  induction s generalizing cur with
  | nil =>
    intro piece hp
    simp only [splitFrom, List.mem_singleton] at hp
    subst hp
    exact hcur
  | cons c cs ih =>
    intro piece hp
    unfold splitFrom at hp
    by_cases hc : c = sep
    · rw [if_pos hc, List.mem_cons] at hp
      rcases hp with hp | hp
      · subst hp
        exact hcur
      · exact ih [] (List.not_mem_nil _) piece hp
    · rw [if_neg hc] at hp
      refine ih (cur ++ [c]) ?_ piece hp
      simp only [List.mem_append, List.mem_singleton, not_or]
      exact ⟨hcur, Ne.symm hc⟩

theorem intercalate_cons_of_ne_nil (sep piece : List Char) (rest : List (List Char))
    (h : rest ≠ []) :
    List.intercalate sep (piece :: rest) = piece ++ sep ++ List.intercalate sep rest := by
  cases rest with
  | nil => exact absurd rfl h
  | cons r rs => simp [List.intercalate, List.intersperse]

theorem splitFrom_intercalate (sep : Char) (cur s : List Char) :
    List.intercalate [sep] (splitFrom sep cur s) = cur ++ s := by
  induction s generalizing cur with
  | nil => simp [splitFrom, List.intercalate]
  | cons c cs ih =>
    unfold splitFrom
    by_cases hc : c = sep
    · rw [if_pos hc, intercalate_cons_of_ne_nil _ _ _ (splitFrom_ne_nil _ _ _), ih]
      simp [hc]
    · rw [if_neg hc, ih]
      simp

theorem Split_ne_nil (s : String) (sep : Char) : Split s sep ≠ [] := by
  unfold Split
  simpa using splitFrom_ne_nil sep [] s.data

theorem Split_length (s : String) (sep : Char) :
    (Split s sep).length = s.data.count sep + 1 := by
  unfold Split
  rw [List.length_map, splitFrom_length]

theorem Split_not_mem (s : String) (sep : Char) :
    ∀ piece ∈ Split s sep, sep ∉ piece.data := by
  intro piece hp
  unfold Split at hp
  obtain ⟨l, hl, rfl⟩ := List.mem_map.1 hp
  exact splitFrom_not_mem sep [] s.data (List.not_mem_nil _) l hl

theorem Join_Split (s : String) (sep : Char) : Join (Split s sep) sep = s := by
  unfold Join Split
  have hmap : ((splitFrom sep [] s.data).map String.mk).map String.data
      = splitFrom sep [] s.data := by
    rw [List.map_map]
    exact List.map_id _
  rw [hmap, splitFrom_intercalate]
  rfl

/-! ## The order-submission handler -/

theorem AddCustomer_of_not_post (w : ResponseWriter) (r : Request) (db : Collection)
    (hm : r.Method ≠ MethodPost) : AddCustomer w r db = (w, db) := by
  unfold AddCustomer
  rw [if_neg hm]

theorem AddCustomer_of_parse_error (w : ResponseWriter) (r : Request) (db : Collection)
    (hm : r.Method = MethodPost) (hf : r.Form = none) :
    AddCustomer w r db = (Error w "Invalid form data" StatusBadRequest, db) := by
  unfold AddCustomer
  rw [if_pos hm, hf]

theorem AddCustomer_of_insert_ok (w : ResponseWriter) (r : Request) (db : Collection)
    (form : List (String × String)) (hm : r.Method = MethodPost) (hf : r.Form = some form)
    (hok : db.reachable = true) :
    AddCustomer w r db
      = (Redirect w "/" StatusSeeOther,
          { db with
            docs := db.docs ++
              [{ Name := FormValue form "name", Phone := FormValue form "phone",
                 OrderedItems := Split (FormValue form "orderedItems") ',',
                 TotalAmount := CalculateTotal (Split (FormValue form "orderedItems") ',') }] }) := by
  unfold AddCustomer
  rw [if_pos hm, hf]
  simp [InsertOne, hok]

theorem AddCustomer_of_insert_error (w : ResponseWriter) (r : Request) (db : Collection)
    (form : List (String × String)) (hm : r.Method = MethodPost) (hf : r.Form = some form)
    (hfail : db.reachable = false) :
    AddCustomer w r db = (Error w "Error saving customer" StatusInternalServerError, db) := by
  unfold AddCustomer
  rw [if_pos hm, hf]
  simp [InsertOne, hfail]

theorem Error_fresh (w : ResponseWriter) (msg : String) (code : Nat) (hw : w.Status = none) :
    (Error w msg code).Status = some code ∧ (Error w msg code).Location = w.Location := by
  simp [Error, WriteHeader, hw]

theorem Redirect_fresh (w : ResponseWriter) (url : String) (code : Nat)
    (hw : w.Status = none) :
    (Redirect w url code).Status = some code ∧ (Redirect w url code).Location = some url
      ∧ (Redirect w url code).Body = w.Body := by
  simp [Redirect, WriteHeader, hw]

/-- Claim C3, refuted as stated. A POST whose form parses but has no `name` field,
sent to a reachable store, is answered with 303 and not 400, and one record with
the empty name is inserted. -/
theorem AddCustomer_missing_name_counterexample :
    List.lookup "name" [("phone", "123"), ("orderedItems", "Burger")] = none
      ∧ AddCustomer { Status := none, Location := none, Body := "" }
          { Method := "POST", Form := some [("phone", "123"), ("orderedItems", "Burger")] }
          { docs := [], reachable := true }
        = ({ Status := some 303, Location := some "/", Body := "" },
           { docs := [{ Name := "", Phone := "123", OrderedItems := ["Burger"],
                        TotalAmount := 50 }],
             reachable := true }) := by
  decide

/-- Claim C3, amended. A POST whose form parses and has no `name` field is not
rejected: the status is never 400, the name is taken to be the empty string, and
when the store insert succeeds exactly one record, with the empty name, is
inserted and the response is the 303 redirect to `/`. -/
theorem AddCustomer_missing_name (w : ResponseWriter) (r : Request) (db : Collection)
    (form : List (String × String)) (hw : w.Status = none) (hm : r.Method = MethodPost)
    (hf : r.Form = some form) (hname : form.lookup "name" = none) :
    (AddCustomer w r db).1.Status ≠ some StatusBadRequest
      ∧ (db.reachable = true →
          (AddCustomer w r db).1.Status = some StatusSeeOther
            ∧ (AddCustomer w r db).1.Location = some "/"
            ∧ (AddCustomer w r db).2.docs
                = db.docs ++
                    [{ Name := "", Phone := FormValue form "phone",
                       OrderedItems := Split (FormValue form "orderedItems") ',',
                       TotalAmount :=
                         CalculateTotal (Split (FormValue form "orderedItems") ',') }]) := by
  have hn : FormValue form "name" = "" := by
    unfold FormValue
    rw [hname]
  cases hr : db.reachable with
  | false =>
    rw [AddCustomer_of_insert_error w r db form hm hf hr]
    refine ⟨?_, fun h => absurd h (by simp)⟩
    rw [(Error_fresh w _ _ hw).1]
    decide
  | true =>
    rw [AddCustomer_of_insert_ok w r db form hm hf hr, hn]
    have hred := Redirect_fresh w "/" StatusSeeOther hw
    refine ⟨?_, fun _ => ⟨hred.1, hred.2.1, rfl⟩⟩
    rw [hred.1]
    decide

/-- Witness for the amended C3: a parsed POST without a `name` field, sent to a
reachable store. -/
theorem AddCustomer_missing_name_witness :
    (AddCustomer { Status := none, Location := none, Body := "" }
        { Method := "POST", Form := some [("phone", "123"), ("orderedItems", "Burger")] }
        { docs := [], reachable := true }).1.Status ≠ some StatusBadRequest :=
  (AddCustomer_missing_name { Status := none, Location := none, Body := "" }
    { Method := "POST", Form := some [("phone", "123"), ("orderedItems", "Burger")] }
    { docs := [], reachable := true } [("phone", "123"), ("orderedItems", "Burger")]
    rfl rfl rfl (by decide)).1

/-- Claim C4. A POST whose form parses and whose insert succeeds adds exactly one
record at the end of the collection; its name and phone are the submitted values,
its items are the submitted item string split on commas without trimming, and its
total is `CalculateTotal` of that list. For the item string `"Burger,Unknown"` the
stored items are `["Burger", "Unknown"]` and the stored total is 50. -/
theorem AddCustomer_stores_order (w : ResponseWriter) (r : Request) (db : Collection)
    (form : List (String × String)) (hm : r.Method = MethodPost) (hf : r.Form = some form)
    (hok : (InsertOne db
        { Name := FormValue form "name", Phone := FormValue form "phone",
          OrderedItems := Split (FormValue form "orderedItems") ',',
          TotalAmount := CalculateTotal (Split (FormValue form "orderedItems") ',') }).1
      = true) :
    (AddCustomer w r db).2.docs
        = db.docs ++
            [{ Name := FormValue form "name", Phone := FormValue form "phone",
               OrderedItems := Split (FormValue form "orderedItems") ',',
               TotalAmount := CalculateTotal (Split (FormValue form "orderedItems") ',') }]
      ∧ (FormValue form "orderedItems" = "Burger,Unknown" →
          (AddCustomer w r db).2.docs
            = db.docs ++
                [{ Name := FormValue form "name", Phone := FormValue form "phone",
                   OrderedItems := ["Burger", "Unknown"], TotalAmount := 50 }]) := by
  have hr : db.reachable = true := by
    cases hb : db.reachable with
    | true => rfl
    | false => simp [InsertOne, hb] at hok
  rw [AddCustomer_of_insert_ok w r db form hm hf hr]
  refine ⟨rfl, fun hitems => ?_⟩
  rw [hitems]
  have hsplit : Split "Burger,Unknown" ',' = ["Burger", "Unknown"] := by decide
  have htotal : CalculateTotal ["Burger", "Unknown"] = 50 := by decide
  rw [hsplit, htotal]

/-- Witness for C4: the submission `name=Alice`, `phone=123`,
`orderedItems=Burger,Unknown` to a reachable store that already holds one
record. -/
theorem AddCustomer_stores_order_witness :
    (AddCustomer { Status := none, Location := none, Body := "" }
        { Method := "POST",
          Form := some [("name", "Alice"), ("phone", "123"),
                        ("orderedItems", "Burger,Unknown")] }
        { docs := [{ Name := "Bob", Phone := "9", OrderedItems := ["Soda"],
                     TotalAmount := 20 }],
          reachable := true }).2.docs
      = [{ Name := "Bob", Phone := "9", OrderedItems := ["Soda"], TotalAmount := 20 }] ++
          [{ Name := FormValue [("name", "Alice"), ("phone", "123"),
                                ("orderedItems", "Burger,Unknown")] "name",
             Phone := FormValue [("name", "Alice"), ("phone", "123"),
                                 ("orderedItems", "Burger,Unknown")] "phone",
             OrderedItems := ["Burger", "Unknown"], TotalAmount := 50 }] :=
  (AddCustomer_stores_order { Status := none, Location := none, Body := "" }
    { Method := "POST",
      Form := some [("name", "Alice"), ("phone", "123"), ("orderedItems", "Burger,Unknown")] }
    { docs := [{ Name := "Bob", Phone := "9", OrderedItems := ["Soda"], TotalAmount := 20 }],
      reachable := true }
    [("name", "Alice"), ("phone", "123"), ("orderedItems", "Burger,Unknown")]
    rfl rfl (by decide)).2 (by decide)

/-- Claim C5. For a POST handled with a fresh response writer: when the form does
not parse the status is 400, the collection is untouched and no `Location` header
is set; when the form parses and the insert fails the status is 500 and no
`Location` header is set; and the response is the 303 redirect to `/` exactly when
the form parsed and the insert succeeded. -/
theorem AddCustomer_response (w : ResponseWriter) (r : Request) (db : Collection)
    (hw : w.Status = none) (hl : w.Location = none) (hm : r.Method = MethodPost) :
    (r.Form = none →
        (AddCustomer w r db).1.Status = some StatusBadRequest
          ∧ (AddCustomer w r db).2 = db
          ∧ (AddCustomer w r db).1.Location = none)
      ∧ (∀ form, r.Form = some form →
          (InsertOne db
              { Name := FormValue form "name", Phone := FormValue form "phone",
                OrderedItems := Split (FormValue form "orderedItems") ',',
                TotalAmount := CalculateTotal (Split (FormValue form "orderedItems") ',') }).1
            = false →
          (AddCustomer w r db).1.Status = some StatusInternalServerError
            ∧ (AddCustomer w r db).1.Location = none)
      ∧ (((AddCustomer w r db).1.Status = some StatusSeeOther
            ∧ (AddCustomer w r db).1.Location = some "/")
          ↔ ∃ form, r.Form = some form
              ∧ (InsertOne db
                  { Name := FormValue form "name", Phone := FormValue form "phone",
                    OrderedItems := Split (FormValue form "orderedItems") ',',
                    TotalAmount :=
                      CalculateTotal (Split (FormValue form "orderedItems") ',') }).1
                = true) := by
  cases hf : r.Form with
  | none =>
    rw [AddCustomer_of_parse_error w r db hm hf]
    have he := Error_fresh w "Invalid form data" StatusBadRequest hw
    refine ⟨fun _ => ⟨he.1, rfl, he.2.trans hl⟩, fun form h => (by cases h), ?_⟩
    constructor
    · intro h
      rw [he.1] at h
      exact absurd h.1 (by decide)
    · rintro ⟨form, h, _⟩
      cases h
  | some form =>
    cases hr : db.reachable with
    | false =>
      rw [AddCustomer_of_insert_error w r db form hm hf hr]
      have he := Error_fresh w "Error saving customer" StatusInternalServerError hw
      refine ⟨fun h => (by cases h), fun form' _ _ => ⟨he.1, he.2.trans hl⟩, ?_⟩
      constructor
      · intro h
        rw [he.1] at h
        exact absurd h.1 (by decide)
      · rintro ⟨form', _, h⟩
        simp [InsertOne, hr] at h
    | true =>
      rw [AddCustomer_of_insert_ok w r db form hm hf hr]
      have hred := Redirect_fresh w "/" StatusSeeOther hw
      refine ⟨fun h => (by cases h), fun form' _ h => ?_, ?_⟩
      · simp [InsertOne, hr] at h
      · constructor
        · intro _
          exact ⟨form, rfl, by simp [InsertOne, hr]⟩
        · intro _
          exact ⟨hred.1, hred.2.1⟩

/-- Witness for C5: a POST whose form does not parse. -/
theorem AddCustomer_response_witness :
    (AddCustomer { Status := none, Location := none, Body := "" }
        { Method := "POST", Form := none } { docs := [], reachable := true }).1.Status
      = some StatusBadRequest :=
  ((AddCustomer_response { Status := none, Location := none, Body := "" }
    { Method := "POST", Form := none } { docs := [], reachable := true }
    rfl rfl rfl).1 rfl).1

/-- Claim C9. A request whose method is not POST leaves the collection and the
response writer exactly as they were: nothing is inserted, no status is written
and no `Location` header is set. -/
theorem AddCustomer_not_post (w : ResponseWriter) (r : Request) (db : Collection)
    (hm : r.Method ≠ MethodPost) :
    (AddCustomer w r db).2 = db ∧ (AddCustomer w r db).1 = w := by
  rw [AddCustomer_of_not_post w r db hm]
  exact ⟨rfl, rfl⟩

/-- Witness for C9: a GET with a form that would otherwise be stored. -/
theorem AddCustomer_not_post_witness :
    (AddCustomer { Status := none, Location := none, Body := "" }
        { Method := "GET", Form := some [("name", "Alice")] }
        { docs := [], reachable := true }).2
      = { docs := [], reachable := true }
    ∧ (AddCustomer { Status := none, Location := none, Body := "" }
        { Method := "GET", Form := some [("name", "Alice")] }
        { docs := [], reachable := true }).1
      = { Status := none, Location := none, Body := "" } :=
  AddCustomer_not_post { Status := none, Location := none, Body := "" }
    { Method := "GET", Form := some [("name", "Alice")] }
    { docs := [], reachable := true } (by decide)

/-- Claim C8. For every submitted item string `s`, the record `AddCustomer` stores
holds `s` split on commas: the list is non-empty, none of its elements contains a
comma, it has one more element than `s` has commas, and joining it with `,` gives
`s` back, so the names are stored as typed. For `"Burger, Pizza"` the stored list
is `["Burger", " Pizza"]` and the stored total is 200. -/
theorem AddCustomer_stored_items (s : String) (w : ResponseWriter)
    (form : List (String × String)) (docs : List Customer)
    (hs : FormValue form "orderedItems" = s) :
    ∃ c : Customer,
      (AddCustomer w { Method := MethodPost, Form := some form }
          { docs := docs, reachable := true }).2.docs = docs ++ [c]
        ∧ c.OrderedItems = Split s ','
        ∧ c.OrderedItems ≠ []
        ∧ (∀ piece ∈ c.OrderedItems, ',' ∉ piece.data)
        ∧ c.OrderedItems.length = s.data.count ',' + 1
        ∧ Join c.OrderedItems ',' = s
        ∧ (s = "Burger, Pizza" →
            c.OrderedItems = ["Burger", " Pizza"] ∧ c.TotalAmount = 200) := by
  refine ⟨{ Name := FormValue form "name", Phone := FormValue form "phone",
            OrderedItems := Split s ',', TotalAmount := CalculateTotal (Split s ',') },
    ?_, rfl, Split_ne_nil s ',', Split_not_mem s ',', Split_length s ',', Join_Split s ',', ?_⟩
  · rw [AddCustomer_of_insert_ok w _ _ form rfl rfl rfl, hs]
  · intro h
    subst h
    have hsplit : Split "Burger, Pizza" ',' = ["Burger", " Pizza"] := by decide
    have htotal : CalculateTotal ["Burger", " Pizza"] = 200 := by decide
    exact ⟨hsplit, by rw [hsplit, htotal]⟩

/-- Witness for C8: the submission `orderedItems=Burger, Pizza`. -/
theorem AddCustomer_stored_items_witness :
    ∃ c : Customer,
      (AddCustomer { Status := none, Location := none, Body := "" }
          { Method := MethodPost,
            Form := some [("name", "Alice"), ("phone", "123"),
                          ("orderedItems", "Burger, Pizza")] }
          { docs := [], reachable := true }).2.docs = [] ++ [c]
        ∧ c.OrderedItems = Split "Burger, Pizza" ','
        ∧ c.OrderedItems ≠ []
        ∧ (∀ piece ∈ c.OrderedItems, ',' ∉ piece.data)
        ∧ c.OrderedItems.length = "Burger, Pizza".data.count ',' + 1
        ∧ Join c.OrderedItems ',' = "Burger, Pizza"
        ∧ ("Burger, Pizza" = "Burger, Pizza" →
            c.OrderedItems = ["Burger", " Pizza"] ∧ c.TotalAmount = 200) :=
  AddCustomer_stored_items "Burger, Pizza" { Status := none, Location := none, Body := "" }
    [("name", "Alice"), ("phone", "123"), ("orderedItems", "Burger, Pizza")] [] (by decide)

end RMS
